import Mathlib

/-!
Verification of the yggdrasil capability-protocol core (Python source:
yggdrasil/types.py, yggdrasil/protocols.py, yggdrasil/adapters/git.py,
yggdrasil/compliance.py) against its natural-language specification.

The Python code is shallowly embedded: Python ints become Lean Int,
dataclasses become structures, dictionaries produced by to_json become
structures with the same keys, methods that shell out to the git CLI are
modelled by executable functions over an explicit repository state, and
Python exceptions become Except.
-/

/- ===================== types.py : HLC ===================== -/

/-- Embeds the frozen dataclass HLC of types.py: physical milliseconds and a
logical counter, both Python ints. -/
structure HLC where
  physical : Int
  logical : Int
  deriving DecidableEq, Repr

/-- Lexicographic strict order on HLC values (dataclass order=True compares
field tuples: physical first, then logical). -/
def hlcLt (a b : HLC) : Prop :=
  a.physical < b.physical ∨ (a.physical = b.physical ∧ a.logical < b.logical)

/-- Lexicographic non-strict order on HLC values. -/
def hlcLe (a b : HLC) : Prop :=
  a.physical < b.physical ∨ (a.physical = b.physical ∧ a.logical ≤ b.logical)

instance (a b : HLC) : Decidable (hlcLt a b) := by
  unfold hlcLt; exact inferInstance

instance (a b : HLC) : Decidable (hlcLe a b) := by
  unfold hlcLe; exact inferInstance

/-- Embeds HLC.tick of types.py; the one wall-clock read
int(time.time()*1000) is passed in explicitly as now_ms. -/
def HLC.tick (now_ms : Int) (self : HLC) : HLC :=
  if now_ms > self.physical then ⟨now_ms, 0⟩
  else ⟨self.physical, self.logical + 1⟩

/-- Embeds HLC.receive of types.py; the one wall-clock read is passed in
explicitly as now_ms.  The Python chained comparison
max_physical == self.physical == remote.physical is the conjunction of the
two adjacent equalities. -/
def HLC.receive (now_ms : Int) (self remote : HLC) : HLC :=
  let max_physical := max now_ms (max self.physical remote.physical)
  if max_physical = self.physical ∧ self.physical = remote.physical then
    ⟨max_physical, max self.logical remote.logical + 1⟩
  else if max_physical = self.physical then
    ⟨max_physical, self.logical + 1⟩
  else if max_physical = remote.physical then
    ⟨max_physical, remote.logical + 1⟩
  else
    ⟨max_physical, 0⟩

/- ===================== types.py : JSON wire shapes ===================== -/

/-- Shape of the dict returned by HLC.to_json: keys physical and logical. -/
structure HLCJson where
  physical : Int
  logical : Int
  deriving DecidableEq, Repr

/-- Embeds HLC.to_json of types.py. -/
def HLC.to_json (self : HLC) : HLCJson :=
  ⟨self.physical, self.logical⟩

/-- Embeds HLC.from_json of types.py (reads keys physical and logical). -/
def HLC.from_json (data : HLCJson) : HLC :=
  ⟨data.physical, data.logical⟩

/-- Embeds the frozen dataclass SnapshotRef of types.py.  The Python
frozenset of parent ids is a Finset String. -/
structure SnapshotRef where
  system_id : String
  snapshot_id : String
  parent_ids : Finset String
  hlc : Option HLC
  content_hash : Option String
  deriving DecidableEq

/-- Shape of the dict returned by SnapshotRef.to_json: keys system-id,
snapshot-id, parent-ids (a list), hlc (dict or None), content-hash
(string or None). -/
structure SnapshotRefJson where
  system_id : String
  snapshot_id : String
  parent_ids : List String
  hlc : Option HLCJson
  content_hash : Option String
  deriving DecidableEq

/-- Embeds SnapshotRef.to_json of types.py.  list(self.parent_ids)
enumerates the frozenset in an unspecified order; the embedding picks the
sorted enumeration.  self.hlc.to_json() if self.hlc else None: an HLC
dataclass instance is always truthy, so this is an Option map. -/
def SnapshotRef.to_json (self : SnapshotRef) : SnapshotRefJson :=
  { system_id := self.system_id
    snapshot_id := self.snapshot_id
    parent_ids := self.parent_ids.sort (· ≤ ·)
    hlc := self.hlc.map HLC.to_json
    content_hash := self.content_hash }

/-- Embeds SnapshotRef.from_json of types.py.  frozenset(data["parent-ids"])
is List.toFinset; HLC.from_json(data["hlc"]) if data.get("hlc") else None
tests truthiness of the stored value, and a present hlc dict (which always
carries its two keys) is truthy, so this too is an Option map. -/
def SnapshotRef.from_json (data : SnapshotRefJson) : SnapshotRef :=
  { system_id := data.system_id
    snapshot_id := data.snapshot_id
    parent_ids := data.parent_ids.toFinset
    hlc := data.hlc.map HLC.from_json
    content_hash := data.content_hash }

/-- Embeds the frozen dataclass Conflict of types.py.  path is a Python
tuple of opaque values, base/ours/theirs are opaque values defaulting to
None; the opaque value type is the parameter V and None is Option.none. -/
structure Conflict (V : Type) where
  path : List V
  base : Option V := none
  ours : Option V := none
  theirs : Option V := none
  deriving DecidableEq, Repr

/-- Shape of the dict returned by Conflict.to_json: keys path (a list),
base, ours, theirs. -/
structure ConflictJson (V : Type) where
  path : List V
  base : Option V
  ours : Option V
  theirs : Option V
  deriving DecidableEq, Repr

/-- Embeds Conflict.to_json of types.py (list(self.path) keeps order). -/
def Conflict.to_json {V : Type} (self : Conflict V) : ConflictJson V :=
  ⟨self.path, self.base, self.ours, self.theirs⟩

/-- Embeds Conflict.from_json of types.py (tuple(data["path"]) keeps
order, the three value slots are read back with .get). -/
def Conflict.from_json {V : Type} (data : ConflictJson V) : Conflict V :=
  ⟨data.path, data.base, data.ours, data.theirs⟩

/- ===================== adapters/git.py : repository model ===================== -/

/-- Error taxonomy of the protocol.  The git adapter itself only ever
surfaces RuntimeError from the _git helper, modelled as Underlying. -/
inductive Err where
  | NotFound
  | Unsupported
  | MergeConflict
  | InvalidState
  | Underlying
  | AssertionFailed
  deriving DecidableEq, Repr

/-- Commit id (git object hash, opaque string). -/
abbrev Oid := String

/-- GitTree of a commit: association list from file path to blob content. -/
abbrev GitTree := List (String × String)

/-- One commit of the backing git repository: its parent ids and its tree. -/
structure GitCommit where
  parents : List Oid
  tree : GitTree
  deriving DecidableEq, Repr

/-- State of the backing git repository that the GitSystem adapter shells
out to: the commit store (listed newest-first, the backing topological
order that git log / git rev-list enumerate), and the resolved HEAD. -/
structure Repo where
  repo_path : String
  commits : List (Oid × GitCommit)
  head : Oid
  deriving DecidableEq, Repr

/-- Look a commit up by id. -/
def Repo.lookup (r : Repo) (oid : Oid) : Option GitCommit :=
  (r.commits.find? (fun p => p.1 == oid)).map Prod.snd

/-- All commit ids of the repository, newest first. -/
def Repo.ids (r : Repo) : List Oid :=
  r.commits.map Prod.fst

/-- Fuelled ancestry walk: b is reachable from a by following parent
links, reflexively.  Fuel bounds the path length. -/
def reachFuel (r : Repo) : Nat → Oid → Oid → Bool
  | 0, a, b => a == b
  | n + 1, a, b =>
    a == b ||
      (match r.lookup a with
       | some c => c.parents.any (fun p => reachFuel r n p b)
       | none => false)

/-- Reflexive-transitive ancestry: in an acyclic store every ancestor path
has length below the number of commits, so that much fuel is complete. -/
def isReachable (r : Repo) (a b : Oid) : Bool :=
  reachFuel r r.commits.length a b

/-- Models the git rev-list command: every stored commit reachable from
start (including start itself), in the backing topological order. -/
def gitRevList (r : Repo) (start : Oid) : List Oid :=
  r.ids.filter (fun x => isReachable r start x)

/-- Models the git merge-base command: the most recent stored commit that
is an ancestor (reflexively) of both arguments; none when the histories
are disjoint, which makes the command exit nonzero. -/
def mergeBase (r : Repo) (a b : Oid) : Option Oid :=
  r.ids.find? (fun x => isReachable r a x && isReachable r b x)

/-- Content of a tree at a path. -/
def treeLookup (t : GitTree) (p : String) : Option String :=
  (t.find? (fun e => e.1 == p)).map Prod.snd

/-- GitTree of a stored commit (empty for an unknown id). -/
def treeOf (r : Repo) (oid : Oid) : GitTree :=
  match r.lookup oid with
  | some c => c.tree
  | none => []

/-- Paths bound in a tree. -/
def treePaths (t : GitTree) : List String :=
  t.map Prod.fst

/-- Three-way merge conflict test at one path: clean when both sides
agree, or at least one side is unchanged from the base. -/
def conflictAt (base ours theirs : GitTree) (p : String) : Bool :=
  decide (¬ (treeLookup ours p = treeLookup theirs p ∨
             treeLookup ours p = treeLookup base p ∨
             treeLookup theirs p = treeLookup base p))

/-- All conflicting paths of a three-way merge. -/
def conflictPaths (base ours theirs : GitTree) : List String :=
  ((treePaths base ++ treePaths ours ++ treePaths theirs).dedup).filter
    (conflictAt base ours theirs)

/-- Result tree of a clean three-way merge: per path, the side value when
ours is unchanged from base, ours otherwise. -/
def mergedTree (base ours theirs : GitTree) : GitTree :=
  ((treePaths base ++ treePaths ours ++ treePaths theirs).dedup).filterMap
    (fun p =>
      let keep := if treeLookup ours p = treeLookup base p
                  then treeLookup theirs p else treeLookup ours p
      keep.map (fun v => (p, v)))

/-- Id of the commit a non-fast-forward git merge records. -/
def freshMergeOid (head source : Oid) : Oid :=
  "merge(" ++ head ++ "," ++ source ++ ")"

/-- Exit status of the three-argument git merge-tree invocation of
GitSystem.conflicts.  This positional form is the deprecated trivial-merge
mode: it prints conflict hunks to stdout but exits 0 for valid commits
even when the three-way merge conflicts; a nonzero status needs a usage
or object error, which cannot arise here because merge-base has already
resolved both refs (and the base) to commits.  Hence the status is 0. -/
def mergeTreeReturncode (r : Repo) (base a b : Oid) : Int := 0

/-- Embeds GitSystem.conflicts of adapters/git.py: git merge-base a b
failing (disjoint histories) is caught and yields []; otherwise the
three-argument git merge-tree probe runs and one coarse Conflict record
is produced when its returncode is nonzero — which, per
mergeTreeReturncode, never happens for refs merge-base accepted, leaving
that branch dead and the probe constantly empty. -/
def GitSystem.conflicts (r : Repo) (a b : Oid) : List (Conflict String) :=
  match mergeBase r a b with
  | none => []
  | some base =>
    if mergeTreeReturncode r base a b ≠ 0 then
      [{ path := ["merge-tree"], base := some base, ours := some a, theirs := some b }]
    else []

/-- State-passing form of the conflicts probe: the methods of the Python
class act on a live repository, so the probe is paired with the
repository state it leaves behind.  merge-base and the three-argument
merge-tree are read-only commands, hence the state is returned as is. -/
def GitSystem.conflictsRun (r : Repo) (a b : Oid) : List (Conflict String) × Repo :=
  (GitSystem.conflicts r a b, r)

/-- Embeds GitSystem.merge of adapters/git.py, which shells out to
git merge source: no common ancestor means git refuses to merge unrelated
histories (a RuntimeError, modelled Underlying); a source already
contained in HEAD is a no-op; a HEAD contained in source fast-forwards;
otherwise a three-way merge against the merge base either conflicts (git
merge exits nonzero, RuntimeError again) or records a two-parent merge
commit. -/
def GitSystem.merge (r : Repo) (source : Oid) : Except Err Repo :=
  match mergeBase r r.head source with
  | none => .error .Underlying
  | some base =>
    if isReachable r r.head source then .ok r
    else if isReachable r source r.head then .ok { r with head := source }
    else if conflictPaths (treeOf r base) (treeOf r r.head) (treeOf r source) ≠ [] then
      .error .Underlying
    else
      let newOid := freshMergeOid r.head source
      .ok { r with
            commits := (newOid,
              ⟨[r.head, source],
               mergedTree (treeOf r base) (treeOf r r.head) (treeOf r source)⟩)
              :: r.commits
            head := newOid }

/-- Embeds GitSystem.ancestors of adapters/git.py: the output lines of
git rev-list snap_id. -/
def GitSystem.ancestors (r : Repo) (snap : Oid) : List Oid :=
  gitRevList r snap

/-- Embeds GitSystem.is_ancestor of adapters/git.py: git merge-base
with the is-ancestor flag exits 0 iff a is reflexively an ancestor of b;
it errors on an unknown revision, which the adapter catches as False. -/
def GitSystem.is_ancestor (r : Repo) (a b : Oid) : Bool :=
  if (r.lookup a).isSome && (r.lookup b).isSome then isReachable r b a
  else false

/-- Embeds GitSystem.history of adapters/git.py: git log of HEAD, with
"-limit" appended only when the Python value limit is truthy (None and 0
are both falsy and leave the log untruncated), and "since..HEAD" removing
the commits reachable from since. -/
def GitSystem.history (r : Repo) (limit : Option Int) (since : Option Oid) : List Oid :=
  let full := match since with
    | none => gitRevList r r.head
    | some s => (gitRevList r r.head).filter (fun x => !(isReachable r s x))
  match limit with
  | some n => if n ≠ 0 then full.take n.toNat else full
  | none => full

/-- Read-only view returned by GitSystem.as_of of adapters/git.py: the
dict with keys repo_path and commit. -/
structure AsOfView where
  repo_path : String
  commit : String
  deriving DecidableEq, Repr

/-- Embeds GitSystem.as_of of adapters/git.py: it builds the view dict
from its arguments unconditionally — no git command runs, nothing checks
that snap_id names a known snapshot, and no error is ever raised. -/
def GitSystem.as_of (r : Repo) (snap : Oid) : Except Err AsOfView :=
  .ok ⟨r.repo_path, snap⟩

/- ===================== concrete repositories ===================== -/

/-- A repository with a single root commit c0. -/
def repo1 : Repo :=
  ⟨"/tmp/repo1", [("c0", ⟨[], [("data/k", "v")]⟩)], "c0"⟩

/-- A repository with a root c0 and two diverged children cA and cB that
change the same path f in incompatible ways; HEAD at cB.  Merging cA
into cB conflicts. -/
def repo4 : Repo :=
  ⟨"/tmp/repo4",
   [("cA", ⟨["c0"], [("f", "1")]⟩),
    ("cB", ⟨["c0"], [("f", "2")]⟩),
    ("c0", ⟨[], [("f", "0")]⟩)],
   "cB"⟩

/- ===================== protocols.py : Graphable.commit_info ===================== -/

/-- Metadata record returned by snapshot_meta / commit_info (the dict
shape GitSystem.snapshot_meta builds). -/
structure SnapshotMeta where
  snapshot_id : String
  parent_ids : List String
  author : String
  timestamp : Int
  message : String
  deriving DecidableEq, Repr

/-- A protocol instance as seen by the default Graphable.commit_info of
protocols.py: all that matters there is whether isinstance(self,
Snapshotable) holds and, if so, which snapshot_meta the instance
provides.  snapshotMeta? = some f models an instance that is also
Snapshotable with snapshot_meta f; none models a Graphable-only one. -/
structure GraphableInstance where
  snapshotMeta? : Option (String → SnapshotMeta)

/-- Embeds the default Graphable.commit_info of protocols.py: when the
same instance is also Snapshotable it routes to snapshot_meta, otherwise
it raises NotImplementedError (the Unsupported failure). -/
def Graphable.commit_info (self : GraphableInstance) (snap_id : String) :
    Except Err SnapshotMeta :=
  match self.snapshotMeta? with
  | some f => .ok (f snap_id)
  | none => .error .Unsupported

/-- Example snapshot_meta an instance may provide. -/
def sampleMeta : String → SnapshotMeta :=
  fun s => ⟨s, [], "a <a@b>", 0, "m"⟩

/-- A Graphable instance that is also Snapshotable. -/
def graphSnapInstance : GraphableInstance := ⟨some sampleMeta⟩

/-- A Graphable instance that is not Snapshotable. -/
def graphOnlyInstance : GraphableInstance := ⟨none⟩

/- ===================== compliance.py : harness model ===================== -/

/-- Embeds the six-boolean Capabilities dataclass of types.py. -/
structure Capabilities where
  snapshotable : Bool
  branchable : Bool
  graphable : Bool
  mergeable : Bool
  overlayable : Bool
  watchable : Bool
  deriving DecidableEq, Repr

/-- Embeds getattr(caps, cap, False) on a Capabilities value. -/
def getattrCap (c : Capabilities) (cap : String) : Bool :=
  if cap == "snapshotable" then c.snapshotable
  else if cap == "branchable" then c.branchable
  else if cap == "graphable" then c.graphable
  else if cap == "mergeable" then c.mergeable
  else if cap == "overlayable" then c.overlayable
  else if cap == "watchable" then c.watchable
  else false

/-- Shape of a metadata dict as the checks inspect it: its key set and
whether its parent-ids value is a set. -/
structure MetaDict where
  keys : List String
  parentIdsIsSet : Bool
  deriving DecidableEq, Repr

/-- Events logged while a compliance check runs: system number n was
acquired via create_system, or fix["close"] was called on system n. -/
inductive TEvent where
  | created (n : Nat)
  | closed (n : Nat)
  deriving DecidableEq, Repr

/-- Interpreter state for a check: a counter handing out fresh system
numbers, a call clock (so that fixture behaviour may vary from call to
call), the event log, and the current value of the Python local variable
sys — the one that the pattern sys = fix[...](sys) rebinds and that the
finally block closes. -/
structure TState where
  counter : Nat
  clock : Nat
  events : List TEvent
  cur : Nat
  deriving DecidableEq, Repr

/-- A compliance-check computation: state in, Python-exception-or-value
out together with the state, which survives exceptions as in Python. -/
def M (α : Type) := TState → Except Err α × TState

/-- Monadic return for M. -/
def M.pure {α : Type} (x : α) : M α := fun s => (.ok x, s)

/-- Monadic sequencing for M: an exception aborts the rest. -/
def M.bind {α β : Type} (m : M α) (f : α → M β) : M β := fun s =>
  match m s with
  | (.ok x, s1) => f x s1
  | (.error e, s1) => (.error e, s1)

instance : Monad M where
  pure := M.pure
  bind := M.bind

/-- Python try/finally: run the body, then the finalizer on every path;
an exception raised by the finalizer replaces the body outcome. -/
def tryFinallyM {α : Type} (body : M α) (fin : M Unit) : M α := fun s =>
  match body s with
  | (res, s1) =>
    match fin s1 with
    | (.ok _, s2) => (res, s2)
    | (.error e, s2) => (.error e, s2)

/-- The abstract fixture plus adapter surface a check drives.  Every
operation receives the call clock and the current system number and
either returns or raises; operations written sys = fix[...](sys) (or
sys = sys.branch(...) etc.) return the system.  delete_entry is optional
(None makes the delete/overwrite checks skip).  loopFuel bounds the
parent-walk loop of test_parent_ids_root_commit, an iteration budget
after which the model deems the walk divergent. -/
structure Fixture where
  create_system : Nat → Except Err Unit
  mutate : Nat → Nat → Except Err Nat
  commit : Nat → Nat → String → Except Err Nat
  close : Nat → Nat → Except Err Unit
  write_entry : Nat → Nat → String → String → Except Err Nat
  read_entry : Nat → Nat → String → Except Err (Option String)
  count_entries : Nat → Nat → Except Err Int
  delete_entry : Option (Nat → Nat → String → Except Err Nat)
  capabilities : Nat → Nat → Except Err Capabilities
  system_id : Nat → Nat → Except Err String
  system_type : Nat → Nat → Except Err String
  snapshot_id : Nat → Nat → Except Err String
  parent_ids : Nat → Nat → Option String → Except Err (List String)
  snapshot_meta : Nat → Nat → String → Except Err MetaDict
  as_of : Nat → Nat → String → Except Err (Option AsOfView)
  branches : Nat → Nat → Except Err (List String)
  current_branch : Nat → Nat → Except Err String
  branch : Nat → Nat → String → Except Err Nat
  checkout : Nat → Nat → String → Except Err Nat
  delete_branch : Nat → Nat → String → Except Err Nat
  history : Nat → Nat → Option Int → Except Err (List String)
  ancestors : Nat → Nat → String → Except Err (List String)
  is_ancestor : Nat → Nat → String → String → Except Err Bool
  common_ancestor : Nat → Nat → String → String → Except Err (Option String)
  merge : Nat → Nat → String → Except Err Nat
  conflicts : Nat → Nat → String → String → Except Err (List (Conflict String))
  diff : Nat → Nat → String → String → Except Err (Option String)
  loopFuel : Nat

/-- sys = fix["create_system"](): on success a fresh system number is
handed out, its acquisition logged, and the local variable sys bound to
it; a raising create_system acquires nothing. -/
def createSystem (fx : Fixture) : M Unit := fun s =>
  match fx.create_system s.clock with
  | .ok _ => (.ok (), { counter := s.counter + 1, clock := s.clock + 1,
                        events := TEvent.created s.counter :: s.events,
                        cur := s.counter })
  | .error e => (.error e, { s with clock := s.clock + 1 })

/-- fix["close"](sys) in a finally block: the call on the current sys is
logged unconditionally, then whatever the fixture close does surfaces. -/
def closeCur (fx : Fixture) : M Unit := fun s =>
  (fx.close s.clock s.cur,
   { s with clock := s.clock + 1, events := TEvent.closed s.cur :: s.events })

/-- sys = f(sys): a call that returns the system, rebinding the local
variable sys on success. -/
def callAssign (f : Nat → Nat → Except Err Nat) : M Unit := fun s =>
  match f s.clock s.cur with
  | .ok v => (.ok (), { s with clock := s.clock + 1, cur := v })
  | .error e => (.error e, { s with clock := s.clock + 1 })

/-- A value-returning call on the current system. -/
def callExpr {α : Type} (f : Nat → Nat → Except Err α) : M α := fun s =>
  (f s.clock s.cur, { s with clock := s.clock + 1 })

/-- A Python assert statement: raises AssertionError when false. -/
def massert (b : Bool) : M Unit := fun s =>
  (if b then .ok () else .error .AssertionFailed, s)

/-- Python list indexing hist[i]: raises IndexError out of range. -/
def pyIndex {α : Type} (l : List α) (i : Nat) : M α := fun s =>
  (match l.get? i with
   | some v => .ok v
   | none => .error .Underlying, s)

/-- The acquire/try/finally shape shared by _has_capability and by every
check of compliance.py: sys = fix["create_system"](); try: body;
finally: fix["close"](sys). -/
def withSystem {α : Type} (fx : Fixture) (body : M α) : M α := do
  createSystem fx
  tryFinallyM body (closeCur fx)

/-- Embeds _has_capability of compliance.py. -/
def hasCapability (fx : Fixture) (cap : String) : M Bool :=
  withSystem fx (do
    let caps ← callExpr fx.capabilities
    M.pure (getattrCap caps cap))

/-- sys = fix["mutate"](sys). -/
def stMutate (fx : Fixture) : M Unit := callAssign fx.mutate

/-- sys = fix["commit"](sys, msg). -/
def stCommit (fx : Fixture) (msg : String) : M Unit :=
  callAssign (fun c y => fx.commit c y msg)

/-- sys = fix["write_entry"](sys, k, v). -/
def stWriteEntry (fx : Fixture) (k v : String) : M Unit :=
  callAssign (fun c y => fx.write_entry c y k v)

/-- sys = fix["delete_entry"](sys, k) for the present delete hook g. -/
def stDeleteEntry (g : Nat → Nat → String → Except Err Nat) (k : String) : M Unit :=
  callAssign (fun c y => g c y k)

/-- sys = sys.branch(name). -/
def stBranch (fx : Fixture) (name : String) : M Unit :=
  callAssign (fun c y => fx.branch c y name)

/-- sys = sys.checkout(name). -/
def stCheckout (fx : Fixture) (name : String) : M Unit :=
  callAssign (fun c y => fx.checkout c y name)

/-- sys = sys.delete_branch(name). -/
def stDeleteBranch (fx : Fixture) (name : String) : M Unit :=
  callAssign (fun c y => fx.delete_branch c y name)

/-- sys = sys.merge(source). -/
def stMerge (fx : Fixture) (source : String) : M Unit :=
  callAssign (fun c y => fx.merge c y source)

/-- The walk-to-root loop of test_parent_ids_root_commit: repeatedly
replace snap by next(iter(parents)) until parent_ids(snap) is empty. -/
def walkToRoot (fx : Fixture) : Nat → String → M String
  | 0, _ => fun s => (.error .Underlying, s)
  | fuel + 1, snap => do
    let parents ← callExpr (fun c y => fx.parent_ids c y (some snap))
    if parents.length == 0 then M.pure snap
    else walkToRoot fx fuel (parents.headD "")

/- ===================== compliance.py : the checks ===================== -/

/-- Embeds test_snapshot_id_after_commit of compliance.py. -/
def test_snapshot_id_after_commit (fx : Fixture) : M Unit :=
  withSystem fx (do
    stMutate fx
    stCommit fx "first"
    let sid ← callExpr fx.snapshot_id
    massert true
    massert (decide (0 < sid.length)))

/-- Embeds test_parent_ids_root_commit of compliance.py (the while loop
walks back to the root via the fuelled walkToRoot). -/
def test_parent_ids_root_commit (fx : Fixture) : M Unit :=
  withSystem fx (do
    stMutate fx
    stCommit fx "root"
    let snap0 ← callExpr fx.snapshot_id
    let snap ← walkToRoot fx fx.loopFuel snap0
    let parents ← callExpr (fun c y => fx.parent_ids c y (some snap))
    massert (parents.length == 0))

/-- Embeds test_parent_ids_chain of compliance.py. -/
def test_parent_ids_chain (fx : Fixture) : M Unit :=
  withSystem fx (do
    stMutate fx
    stCommit fx "first"
    let first_id ← callExpr fx.snapshot_id
    stMutate fx
    stCommit fx "second"
    let parents ← callExpr (fun c y => fx.parent_ids c y none)
    massert (parents.contains first_id))

/-- Embeds test_snapshot_meta of compliance.py. -/
def test_snapshot_meta (fx : Fixture) : M Unit :=
  withSystem fx (do
    stMutate fx
    stCommit fx "test message"
    let sid ← callExpr fx.snapshot_id
    let meta ← callExpr (fun c y => fx.snapshot_meta c y sid)
    massert true
    massert (meta.keys.contains "snapshot-id")
    massert (meta.keys.contains "parent-ids")
    massert meta.parentIdsIsSet)

/-- Embeds test_as_of of compliance.py. -/
def test_as_of (fx : Fixture) : M Unit :=
  withSystem fx (do
    stMutate fx
    stCommit fx "snapshot point"
    let sid ← callExpr fx.snapshot_id
    let view ← callExpr (fun c y => fx.as_of c y sid)
    massert view.isSome)

/-- Embeds test_initial_branches of compliance.py. -/
def test_initial_branches (fx : Fixture) : M Unit := do
  let b ← hasCapability fx "branchable"
  if !b then M.pure () else
    withSystem fx (do
      let branches ← callExpr fx.branches
      massert (branches.contains "main")
      let cb ← callExpr fx.current_branch
      massert (cb == "main"))

/-- Embeds test_create_branch of compliance.py. -/
def test_create_branch (fx : Fixture) : M Unit := do
  let b ← hasCapability fx "branchable"
  if !b then M.pure () else
    withSystem fx (do
      stMutate fx
      stCommit fx "before fork"
      stBranch fx "experiment"
      let branches ← callExpr fx.branches
      massert (branches.contains "experiment")
      let cb ← callExpr fx.current_branch
      massert (cb == "main"))

/-- Embeds test_checkout of compliance.py. -/
def test_checkout (fx : Fixture) : M Unit := do
  let b ← hasCapability fx "branchable"
  if !b then M.pure () else
    withSystem fx (do
      stMutate fx
      stCommit fx "before fork"
      stBranch fx "experiment"
      stCheckout fx "experiment"
      let cb ← callExpr fx.current_branch
      massert (cb == "experiment"))

/-- Embeds test_branch_isolation of compliance.py. -/
def test_branch_isolation (fx : Fixture) : M Unit := do
  let b ← hasCapability fx "branchable"
  if !b then M.pure () else
    withSystem fx (do
      stMutate fx
      stCommit fx "main commit"
      stBranch fx "experiment"
      let main_after_fork ← callExpr fx.snapshot_id
      stCheckout fx "experiment"
      stMutate fx
      stCommit fx "experiment commit"
      stCheckout fx "main"
      let sid ← callExpr fx.snapshot_id
      massert (sid == main_after_fork))

/-- Embeds test_delete_branch of compliance.py. -/
def test_delete_branch (fx : Fixture) : M Unit := do
  let b ← hasCapability fx "branchable"
  if !b then M.pure () else
    withSystem fx (do
      stMutate fx
      stCommit fx "before fork"
      stBranch fx "temp"
      let branches ← callExpr fx.branches
      massert (branches.contains "temp")
      stDeleteBranch fx "temp"
      let branches2 ← callExpr fx.branches
      massert (!(branches2.contains "temp")))

/-- Embeds test_history of compliance.py. -/
def test_history (fx : Fixture) : M Unit := do
  let b ← hasCapability fx "graphable"
  if !b then M.pure () else
    withSystem fx (do
      stMutate fx
      stCommit fx "first"
      stMutate fx
      stCommit fx "second"
      stMutate fx
      stCommit fx "third"
      let id3 ← callExpr fx.snapshot_id
      let hist ← callExpr (fun c y => fx.history c y none)
      let h0 ← pyIndex hist 0
      massert (h0 == id3)
      massert (decide (3 ≤ hist.length)))

/-- Embeds test_history_limit of compliance.py (the range(5) loop is
unrolled). -/
def test_history_limit (fx : Fixture) : M Unit := do
  let b ← hasCapability fx "graphable"
  if !b then M.pure () else
    withSystem fx (do
      stMutate fx
      stCommit fx "commit 0"
      stMutate fx
      stCommit fx "commit 1"
      stMutate fx
      stCommit fx "commit 2"
      stMutate fx
      stCommit fx "commit 3"
      stMutate fx
      stCommit fx "commit 4"
      let hist ← callExpr (fun c y => fx.history c y (some 2))
      massert (hist.length == 2))

/-- Embeds test_ancestors of compliance.py. -/
def test_ancestors (fx : Fixture) : M Unit := do
  let b ← hasCapability fx "graphable"
  if !b then M.pure () else
    withSystem fx (do
      stMutate fx
      stCommit fx "first"
      let id1 ← callExpr fx.snapshot_id
      stMutate fx
      stCommit fx "second"
      let id2 ← callExpr fx.snapshot_id
      stMutate fx
      stCommit fx "third"
      let id3 ← callExpr fx.snapshot_id
      let ancs ← callExpr (fun c y => fx.ancestors c y id3)
      massert (ancs.contains id2)
      massert (ancs.contains id1))

/-- Embeds test_ancestor_predicate of compliance.py. -/
def test_ancestor_predicate (fx : Fixture) : M Unit := do
  let b ← hasCapability fx "graphable"
  if !b then M.pure () else
    withSystem fx (do
      stMutate fx
      stCommit fx "first"
      let id1 ← callExpr fx.snapshot_id
      stMutate fx
      stCommit fx "second"
      let id2 ← callExpr fx.snapshot_id
      let r1 ← callExpr (fun c y => fx.is_ancestor c y id1 id2)
      massert r1
      let r2 ← callExpr (fun c y => fx.is_ancestor c y id2 id1)
      massert (!r2))

/-- Embeds test_common_ancestor of compliance.py. -/
def test_common_ancestor (fx : Fixture) : M Unit := do
  let b1 ← hasCapability fx "graphable"
  if !b1 then M.pure () else do
    let b2 ← hasCapability fx "branchable"
    if !b2 then M.pure () else
      withSystem fx (do
        stMutate fx
        stCommit fx "common base"
        stBranch fx "feature"
        let fork_point ← callExpr fx.snapshot_id
        stMutate fx
        stCommit fx "main advance"
        let main_id ← callExpr fx.snapshot_id
        stCheckout fx "feature"
        stMutate fx
        stCommit fx "feature advance"
        let feat_id ← callExpr fx.snapshot_id
        let anc ← callExpr (fun c y => fx.common_ancestor c y main_id feat_id)
        massert (anc == some fork_point))

/-- Embeds test_commit_info of compliance.py. -/
def test_commit_info (fx : Fixture) : M Unit := do
  let b ← hasCapability fx "graphable"
  if !b then M.pure () else
    withSystem fx (do
      stMutate fx
      stCommit fx "test info"
      let sid ← callExpr fx.snapshot_id
      let meta ← callExpr (fun c y => fx.snapshot_meta c y sid)
      massert true
      massert (meta.keys.contains "parent-ids"))

/-- Embeds test_merge of compliance.py. -/
def test_merge (fx : Fixture) : M Unit := do
  let b ← hasCapability fx "mergeable"
  if !b then M.pure () else
    withSystem fx (do
      stMutate fx
      stCommit fx "base"
      stBranch fx "feature"
      stCheckout fx "feature"
      stMutate fx
      stCommit fx "feature work"
      stCheckout fx "main"
      stMerge fx "feature"
      let merge_id ← callExpr fx.snapshot_id
      massert true)

/-- Embeds test_merge_parent_ids of compliance.py. -/
def test_merge_parent_ids (fx : Fixture) : M Unit := do
  let b ← hasCapability fx "mergeable"
  if !b then M.pure () else
    withSystem fx (do
      stMutate fx
      stCommit fx "base"
      stBranch fx "feature"
      stMutate fx
      stCommit fx "main advance"
      stCheckout fx "feature"
      stMutate fx
      stCommit fx "feature advance"
      stCheckout fx "main"
      stMerge fx "feature"
      let parents ← callExpr (fun c y => fx.parent_ids c y none)
      massert (decide (2 ≤ parents.length)))

/-- Embeds test_conflicts_empty_for_compatible of compliance.py. -/
def test_conflicts_empty_for_compatible (fx : Fixture) : M Unit := do
  let b ← hasCapability fx "mergeable"
  if !b then M.pure () else
    withSystem fx (do
      stMutate fx
      stCommit fx "base"
      stBranch fx "feature"
      stMutate fx
      stCommit fx "main"
      let main_id ← callExpr fx.snapshot_id
      stCheckout fx "feature"
      stMutate fx
      stCommit fx "feature"
      let feat_id ← callExpr fx.snapshot_id
      let cs ← callExpr (fun c y => fx.conflicts c y main_id feat_id)
      massert (cs.length == 0))

/-- Embeds test_diff of compliance.py. -/
def test_diff (fx : Fixture) : M Unit := do
  let b ← hasCapability fx "mergeable"
  if !b then M.pure () else
    withSystem fx (do
      stMutate fx
      stCommit fx "first"
      let id1 ← callExpr fx.snapshot_id
      stMutate fx
      stCommit fx "second"
      let id2 ← callExpr fx.snapshot_id
      let d ← callExpr (fun c y => fx.diff c y id1 id2)
      massert d.isSome)

/-- Embeds test_system_identity of compliance.py. -/
def test_system_identity (fx : Fixture) : M Unit :=
  withSystem fx (do
    let sid ← callExpr fx.system_id
    massert true
    let st ← callExpr fx.system_type
    massert true
    let caps ← callExpr fx.capabilities
    massert true
    massert caps.snapshotable)

/-- Embeds test_write_read_roundtrip of compliance.py. -/
def test_write_read_roundtrip (fx : Fixture) : M Unit :=
  withSystem fx (do
    stWriteEntry fx "key-1" "value-alpha"
    stCommit fx "write one entry"
    let v ← callExpr (fun c y => fx.read_entry c y "key-1")
    massert (v == some "value-alpha"))

/-- Embeds test_count_after_writes of compliance.py. -/
def test_count_after_writes (fx : Fixture) : M Unit :=
  withSystem fx (do
    let c0 ← callExpr fx.count_entries
    massert (c0 == 0)
    stWriteEntry fx "a" "1"
    stCommit fx "first"
    let c1 ← callExpr fx.count_entries
    massert (c1 == 1)
    stWriteEntry fx "b" "2"
    stWriteEntry fx "c" "3"
    stCommit fx "second"
    let c3 ← callExpr fx.count_entries
    massert (c3 == 3))

/-- Embeds test_multiple_entries_readable of compliance.py. -/
def test_multiple_entries_readable (fx : Fixture) : M Unit :=
  withSystem fx (do
    stWriteEntry fx "x" "val-x"
    stWriteEntry fx "y" "val-y"
    stWriteEntry fx "z" "val-z"
    stCommit fx "three entries"
    let vx ← callExpr (fun c y => fx.read_entry c y "x")
    massert (vx == some "val-x")
    let vy ← callExpr (fun c y => fx.read_entry c y "y")
    massert (vy == some "val-y")
    let vz ← callExpr (fun c y => fx.read_entry c y "z")
    massert (vz == some "val-z")
    let vn ← callExpr (fun c y => fx.read_entry c y "nonexistent")
    massert vn.isNone)

/-- Embeds test_branch_data_isolation of compliance.py. -/
def test_branch_data_isolation (fx : Fixture) : M Unit := do
  let b ← hasCapability fx "branchable"
  if !b then M.pure () else
    withSystem fx (do
      stWriteEntry fx "shared" "base-value"
      stCommit fx "base commit"
      stBranch fx "feature"
      stWriteEntry fx "main-only" "main-data"
      stCommit fx "main write"
      stCheckout fx "feature"
      stWriteEntry fx "feature-only" "feature-data"
      stCommit fx "feature write"
      let v1 ← callExpr (fun c y => fx.read_entry c y "feature-only")
      massert (v1 == some "feature-data")
      let v2 ← callExpr (fun c y => fx.read_entry c y "main-only")
      massert v2.isNone
      let v3 ← callExpr (fun c y => fx.read_entry c y "shared")
      massert (v3 == some "base-value")
      stCheckout fx "main"
      let v4 ← callExpr (fun c y => fx.read_entry c y "main-only")
      massert (v4 == some "main-data")
      let v5 ← callExpr (fun c y => fx.read_entry c y "feature-only")
      massert v5.isNone
      let v6 ← callExpr (fun c y => fx.read_entry c y "shared")
      massert (v6 == some "base-value"))

/-- Embeds test_delete_entry_consistency of compliance.py: returns early
when the delete hook is absent. -/
def test_delete_entry_consistency (fx : Fixture) : M Unit :=
  match fx.delete_entry with
  | none => M.pure ()
  | some g =>
    withSystem fx (do
      stWriteEntry fx "keep" "keep-val"
      stWriteEntry fx "remove" "remove-val"
      stCommit fx "two entries"
      let c2 ← callExpr fx.count_entries
      massert (c2 == 2)
      let v0 ← callExpr (fun c y => fx.read_entry c y "remove")
      massert (v0 == some "remove-val")
      stDeleteEntry g "remove"
      stCommit fx "delete one"
      let c1 ← callExpr fx.count_entries
      massert (c1 == 1)
      let v1 ← callExpr (fun c y => fx.read_entry c y "remove")
      massert v1.isNone
      let v2 ← callExpr (fun c y => fx.read_entry c y "keep")
      massert (v2 == some "keep-val"))

/-- Embeds test_overwrite_entry of compliance.py: returns early when the
delete hook is absent. -/
def test_overwrite_entry (fx : Fixture) : M Unit :=
  match fx.delete_entry with
  | none => M.pure ()
  | some g =>
    withSystem fx (do
      stWriteEntry fx "key" "original"
      stCommit fx "original value"
      let v0 ← callExpr (fun c y => fx.read_entry c y "key")
      massert (v0 == some "original")
      stDeleteEntry g "key"
      stWriteEntry fx "key" "updated"
      stCommit fx "updated value"
      let v1 ← callExpr (fun c y => fx.read_entry c y "key")
      massert (v1 == some "updated")
      let c1 ← callExpr fx.count_entries
      massert (c1 == 1))

/-- Embeds the ALL_TESTS registry of compliance.py: the layer-keyed map
of check functions that run_compliance_tests iterates. -/
def allTests : List (String × List (Fixture → M Unit)) :=
  [("system_identity", [test_system_identity]),
   ("snapshotable",
    [test_snapshot_id_after_commit,
     test_parent_ids_root_commit,
     test_parent_ids_chain,
     test_snapshot_meta,
     test_as_of]),
   ("branchable",
    [test_initial_branches,
     test_create_branch,
     test_checkout,
     test_branch_isolation,
     test_delete_branch]),
   ("graphable",
    [test_history,
     test_history_limit,
     test_ancestors,
     test_ancestor_predicate,
     test_common_ancestor,
     test_commit_info]),
   ("mergeable",
    [test_merge,
     test_merge_parent_ids,
     test_conflicts_empty_for_compatible,
     test_diff]),
   ("data_consistency",
    [test_write_read_roundtrip,
     test_count_after_writes,
     test_multiple_entries_readable,
     test_branch_data_isolation,
     test_delete_entry_consistency,
     test_overwrite_entry])]

/-- Initial interpreter state for one check run. -/
def initState : TState := ⟨0, 0, [], 0⟩

/-- The fixture contract of compliance.py and of the spec: the operations
written sys = fix[...](sys) / sys = sys.method(...) return the same
system they were given. -/
structure HandlePreserving (fx : Fixture) : Prop where
  mutate_pres : ∀ c y v, fx.mutate c y = .ok v → v = y
  commit_pres : ∀ c y m v, fx.commit c y m = .ok v → v = y
  write_pres : ∀ c y k w v, fx.write_entry c y k w = .ok v → v = y
  delete_pres : ∀ g, fx.delete_entry = some g →
    ∀ c y k v, g c y k = .ok v → v = y
  branch_pres : ∀ c y n v, fx.branch c y n = .ok v → v = y
  checkout_pres : ∀ c y n v, fx.checkout c y n = .ok v → v = y
  delete_branch_pres : ∀ c y n v, fx.delete_branch c y n = .ok v → v = y
  merge_pres : ∀ c y n v, fx.merge c y n = .ok v → v = y

/-- A concrete well-behaved fixture: every operation succeeds and hands
the system back. -/
def okFixture : Fixture where
  create_system := fun _ => .ok ()
  mutate := fun _ y => .ok y
  commit := fun _ y _ => .ok y
  close := fun _ _ => .ok ()
  write_entry := fun _ y _ _ => .ok y
  read_entry := fun _ _ _ => .ok none
  count_entries := fun _ _ => .ok 0
  delete_entry := none
  capabilities := fun _ _ => .ok ⟨true, false, false, false, false, false⟩
  system_id := fun _ _ => .ok "sys-1"
  system_type := fun _ _ => .ok "git"
  snapshot_id := fun _ _ => .ok "h1"
  parent_ids := fun _ _ _ => .ok []
  snapshot_meta := fun _ _ _ => .ok ⟨["snapshot-id", "parent-ids"], true⟩
  as_of := fun _ _ _ => .ok none
  branches := fun _ _ => .ok ["main"]
  current_branch := fun _ _ => .ok "main"
  branch := fun _ y _ => .ok y
  checkout := fun _ y _ => .ok y
  delete_branch := fun _ y _ => .ok y
  history := fun _ _ _ => .ok []
  ancestors := fun _ _ _ => .ok []
  is_ancestor := fun _ _ _ _ => .ok false
  common_ancestor := fun _ _ _ _ => .ok none
  merge := fun _ y _ => .ok y
  conflicts := fun _ _ _ _ => .ok []
  diff := fun _ _ _ _ => .ok none
  loopFuel := 3


/-- Event-log monotonicity between two interpreter states. -/
def EvMono (s s2 : TState) : Prop :=
  ∀ e, e ∈ s.events → e ∈ s2.events

/-- Every system whose acquisition a run added to the log is also closed
in the final log. -/
def NewClosed (s s2 : TState) : Prop :=
  ∀ n, TEvent.created n ∈ s2.events →
    TEvent.created n ∈ s.events ∨ TEvent.closed n ∈ s2.events

/-- Invariant of the statements inside a try block: the local variable
sys is left as it was, the log only grows, and any system the statements
themselves acquire they also close. -/
def Keeps {α : Type} (m : M α) : Prop :=
  ∀ s, ((m s).2.cur = s.cur) ∧ EvMono s (m s).2 ∧ NewClosed s (m s).2

/-- Invariant of a whole check: the log only grows and any system the
check acquires it also closes (on every exit path). -/
def SelfContained {α : Type} (m : M α) : Prop :=
  ∀ s, EvMono s (m s).2 ∧ NewClosed s (m s).2

/- ===================== THEOREMS ===================== -/

/-- Helper: reachability is reflexive at any fuel. -/
theorem reachFuel_refl (r : Repo) (n : Nat) (a : Oid) :
    reachFuel r n a a = true := by
  cases n <;> simp [reachFuel]

/-- C3: for every HLC h and every wall-clock reading, h.tick() is strictly
greater than h under the (physical, logical) lexicographic order. -/
theorem claim_C3_tick_strictly_increases (now_ms : Int) (h : HLC) :
    hlcLt h (HLC.tick now_ms h) := by
  unfold HLC.tick hlcLt
  split <;> simp <;> omega

/-- C2 counterexample: with h1 = (10,5), h2 = (10,7) and wall-clock reading
11, receive returns (11,0); the physicals of h1 and h2 tie, yet the
logical component 0 is not greater than max(5,7). -/
theorem claim_C2_cex :
    (HLC.mk 10 5).physical = (HLC.mk 10 7).physical ∧
    HLC.receive 11 (HLC.mk 10 5) (HLC.mk 10 7) = HLC.mk 11 0 ∧
    ¬ max (HLC.mk 10 5).logical (HLC.mk 10 7).logical
        < (HLC.receive 11 (HLC.mk 10 5) (HLC.mk 10 7)).logical := by
  refine ⟨rfl, by decide, by decide⟩

/-- C2 amended: receive is at least each input under the lexicographic
order; when the physicals of the two inputs tie AND the wall-clock reading
does not exceed that tied physical, the logical component strictly exceeds
the maximum of the input logicals. -/
theorem claim_C2_receive_monotone (now_ms : Int) (h1 h2 : HLC) :
    hlcLe h1 (HLC.receive now_ms h1 h2) ∧
    hlcLe h2 (HLC.receive now_ms h1 h2) ∧
    (h1.physical = h2.physical → now_ms ≤ h1.physical →
      max h1.logical h2.logical < (HLC.receive now_ms h1 h2).logical) := by
  simp only [HLC.receive, hlcLe]
  split_ifs with hc1 hc2 hc3 <;> simp only <;> omega

/-- C2 amended, witness: at wall clock 5 with tied physicals 10 the logical
strictly exceeds max(2,3), and both order bounds hold. -/
theorem claim_C2_receive_monotone_witness :
    hlcLe (HLC.mk 10 2) (HLC.receive 5 (HLC.mk 10 2) (HLC.mk 10 3)) ∧
    max (HLC.mk 10 2).logical (HLC.mk 10 3).logical
      < (HLC.receive 5 (HLC.mk 10 2) (HLC.mk 10 3)).logical := by
  refine ⟨(claim_C2_receive_monotone 5 (HLC.mk 10 2) (HLC.mk 10 3)).1,
    (claim_C2_receive_monotone 5 (HLC.mk 10 2) (HLC.mk 10 3)).2.2 rfl (by decide)⟩

/-- C10: for each of the three exchangeable value types SnapshotRef, HLC
and Conflict, from_json inverts to_json. -/
theorem claim_C10_json_roundtrip :
    (∀ h : HLC, HLC.from_json (HLC.to_json h) = h) ∧
    (∀ r : SnapshotRef, SnapshotRef.from_json (SnapshotRef.to_json r) = r) ∧
    (∀ (V : Type) (c : Conflict V), Conflict.from_json (Conflict.to_json c) = c) := by
  refine ⟨fun h => rfl, fun r => ?_, fun V c => rfl⟩
  cases r with
  | mk sysid snapid parents hlc chash =>
    cases hlc <;>
      simp [SnapshotRef.to_json, SnapshotRef.from_json, Finset.sort_toFinset,
        HLC.to_json, HLC.from_json]

/-- C4 counterexample: in a single-commit repository, ancestors("c0") is
["c0"] — git rev-list includes the commit itself, so the result does
contain snap_id, contrary to the claim. -/
theorem claim_C4_cex :
    GitSystem.ancestors repo1 "c0" = ["c0"] := by decide

/-- C4 amended: for a known snap_id, ancestors(snap_id) returns the
commits reflexively reachable from snap_id — its transitive parents plus
snap_id itself, which is always a member of the result. -/
theorem claim_C4_ancestors_reflexive (r : Repo) (snap : Oid)
    (hk : snap ∈ r.ids) :
    snap ∈ GitSystem.ancestors r snap ∧
    ∀ x, x ∈ GitSystem.ancestors r snap ↔
      x ∈ r.ids ∧ isReachable r snap x = true := by
  unfold GitSystem.ancestors gitRevList
  refine ⟨?_, fun x => List.mem_filter⟩
  rw [List.mem_filter]
  exact ⟨hk, reachFuel_refl r _ snap⟩

/-- C4 amended, witness: instantiated in the one-commit repository. -/
theorem claim_C4_ancestors_reflexive_witness :
    "c0" ∈ GitSystem.ancestors repo1 "c0" :=
  (claim_C4_ancestors_reflexive repo1 "c0" (by decide)).1

/-- C5 counterexample: is_ancestor("c0","c0") returns true in the
one-commit repository — git merge-base with the is-ancestor flag treats a
commit as its own ancestor, contrary to the claimed strictness. -/
theorem claim_C5_cex :
    GitSystem.is_ancestor repo1 "c0" "c0" = true := by decide

/-- C5 amended: for every snapshot id a known to the system,
is_ancestor(a, a) returns true (ancestry is reflexive, not strict). -/
theorem claim_C5_is_ancestor_reflexive (r : Repo) (a : Oid)
    (hk : (r.lookup a).isSome = true) :
    GitSystem.is_ancestor r a a = true := by
  unfold GitSystem.is_ancestor
  rw [hk]
  simp [isReachable, reachFuel_refl]

/-- C5 amended, witness: instantiated in the one-commit repository. -/
theorem claim_C5_is_ancestor_reflexive_witness :
    GitSystem.is_ancestor repo1 "c0" "c0" = true :=
  claim_C5_is_ancestor_reflexive repo1 "c0" (by decide)

/-- C6 counterexample: the id deadbeef names no snapshot of the
one-commit repository, yet as_of returns a view rather than NotFound. -/
theorem claim_C6_cex :
    GitSystem.as_of repo1 "deadbeef" = .ok ⟨"/tmp/repo1", "deadbeef"⟩ ∧
    "deadbeef" ∉ repo1.ids := by
  exact ⟨rfl, by decide⟩

/-- C6 amended: as_of returns the read-only view record built from the
repository path and the requested id for every snap_id, known or unknown;
it performs no existence check and never fails with NotFound. -/
theorem claim_C6_as_of_total (r : Repo) (snap : Oid) :
    GitSystem.as_of r snap = .ok ⟨r.repo_path, snap⟩ := rfl

/-- C7 counterexample: limit=0 is falsy in Python, so history(limit=0)
returns the full one-element history instead of the first 0 elements. -/
theorem claim_C7_cex :
    GitSystem.history repo1 (some 0) none = GitSystem.history repo1 none none ∧
    GitSystem.history repo1 (some 0) none ≠
      (GitSystem.history repo1 none none).take (Int.toNat 0) := by
  refine ⟨rfl, by decide⟩

/-- C7 amended: for N at least 1, history(limit=N) is exactly the first N
elements of the full history sequence (the backing newest-first
topological order); limit=0 is treated as no limit and returns the full
sequence. -/
theorem claim_C7_history_limit (r : Repo) (n : Int) :
    (1 ≤ n →
      GitSystem.history r (some n) none =
        (GitSystem.history r none none).take n.toNat) ∧
    GitSystem.history r (some 0) none = GitSystem.history r none none := by
  unfold GitSystem.history
  refine ⟨fun h1 => ?_, ?_⟩
  · simp only
    rw [if_pos (by omega : (n : Int) ≠ 0)]
  · simp only
    rw [if_neg (by omega : ¬ ((0 : Int) ≠ 0))]

/-- C7 amended, witness: limit 1 in the one-commit repository. -/
theorem claim_C7_history_limit_witness :
    GitSystem.history repo1 (some 1) none =
      (GitSystem.history repo1 none none).take (Int.toNat 1) :=
  (claim_C7_history_limit repo1 1).1 (by decide)

/-- C1, the code evaluated at the failing input: in the repository whose
diverged branches cA and cB both rewrite path f from the common ancestor
c0, with HEAD at cB, conflicts(cA, cB) returns [] — the three-argument
merge-tree probe exits 0 even for this conflicting pair, so the
Conflict-producing branch never fires — yet merging cA into cB raises
(git merge exits nonzero on the content conflict).  The probe itself
leaves the repository unchanged. -/
theorem claim_C1_dead_probe :
    GitSystem.conflicts repo4 "cA" "cB" = [] ∧
    repo4.head = "cB" ∧
    GitSystem.merge repo4 "cA" = .error .Underlying ∧
    (GitSystem.conflictsRun repo4 "cA" "cB").2 = repo4 := by
  refine ⟨by decide, rfl, rfl, rfl⟩

/- ===================== C8/C9 proof layer ===================== -/

/-- Run equation for monadic bind in M. -/
theorem bind_run {α β : Type} (m : M α) (f : α → M β) (s : TState) :
    (m >>= f) s =
      match m s with
      | (.ok x, s1) => f x s1
      | (.error e, s1) => (.error e, s1) := rfl

/-- M.pure keeps the try-block invariant. -/
theorem keeps_mpure {α : Type} (x : α) : Keeps (M.pure x) :=
  fun _ => ⟨rfl, fun _ he => he, fun _ hn => Or.inl hn⟩

/-- Sequencing keeps the try-block invariant. -/
theorem keeps_bind {α β : Type} {m : M α} {f : α → M β}
    (hm : Keeps m) (hf : ∀ x, Keeps (f x)) : Keeps (m >>= f) := by
  intro s
  rw [bind_run]
  rcases hms : m s with ⟨r, s1⟩
  have h1 := hm s
  rw [hms] at h1
  cases r with
  | ok x =>
    have h2 := (hf x) s1
    exact ⟨h2.1.trans h1.1,
      fun e he => h2.2.1 e (h1.2.1 e he),
      fun n hn =>
        Or.elim (h2.2.2 n hn)
          (fun hc => Or.elim (h1.2.2 n hc) Or.inl
            (fun hc2 => Or.inr (h2.2.1 _ hc2)))
          Or.inr⟩
  | error e =>
    exact h1

/-- Branching keeps the try-block invariant. -/
theorem keeps_ite {α : Type} {c : Prop} [Decidable c] {a b : M α}
    (ha : Keeps a) (hb : Keeps b) : Keeps (if c then a else b) := by
  by_cases hc : c
  · rwa [if_pos hc]
  · rwa [if_neg hc]

/-- A value-returning call keeps the try-block invariant. -/
theorem keeps_callExpr {α : Type} (f : Nat → Nat → Except Err α) :
    Keeps (callExpr f) :=
  fun _ => ⟨rfl, fun _ he => he, fun _ hn => Or.inl hn⟩

/-- An assert keeps the try-block invariant. -/
theorem keeps_massert (b : Bool) : Keeps (massert b) :=
  fun _ => ⟨rfl, fun _ he => he, fun _ hn => Or.inl hn⟩

/-- List indexing keeps the try-block invariant. -/
theorem keeps_pyIndex {α : Type} (l : List α) (i : Nat) :
    Keeps (pyIndex l i) :=
  fun _ => ⟨rfl, fun _ he => he, fun _ hn => Or.inl hn⟩

/-- A handle-preserving assignment call keeps the try-block invariant. -/
theorem keeps_callAssign {f : Nat → Nat → Except Err Nat}
    (hf : ∀ c y v, f c y = .ok v → v = y) : Keeps (callAssign f) := by
  intro s
  unfold callAssign
  cases hfs : f s.clock s.cur with
  | ok v => exact ⟨hf _ _ _ hfs, fun _ he => he, fun _ hn => Or.inl hn⟩
  | error e => exact ⟨rfl, fun _ he => he, fun _ hn => Or.inl hn⟩

/-- sys = fix["mutate"](sys) keeps the invariant for contract fixtures. -/
theorem keeps_stMutate (fx : Fixture) (hfx : HandlePreserving fx) :
    Keeps (stMutate fx) :=
  keeps_callAssign (fun c y v h => hfx.mutate_pres c y v h)

/-- sys = fix["commit"](sys, msg) keeps the invariant. -/
theorem keeps_stCommit (fx : Fixture) (hfx : HandlePreserving fx)
    (msg : String) : Keeps (stCommit fx msg) :=
  keeps_callAssign (fun c y v h => hfx.commit_pres c y msg v h)

/-- sys = fix["write_entry"](sys, k, w) keeps the invariant. -/
theorem keeps_stWriteEntry (fx : Fixture) (hfx : HandlePreserving fx)
    (k w : String) : Keeps (stWriteEntry fx k w) :=
  keeps_callAssign (fun c y v h => hfx.write_pres c y k w v h)

/-- sys = fix["delete_entry"](sys, k) keeps the invariant when the hook
is the registered one. -/
theorem keeps_stDeleteEntry (fx : Fixture) (hfx : HandlePreserving fx)
    (g : Nat → Nat → String → Except Err Nat) (hg : fx.delete_entry = some g)
    (k : String) : Keeps (stDeleteEntry g k) :=
  keeps_callAssign (fun c y v h => hfx.delete_pres g hg c y k v h)

/-- sys = sys.branch(name) keeps the invariant. -/
theorem keeps_stBranch (fx : Fixture) (hfx : HandlePreserving fx)
    (name : String) : Keeps (stBranch fx name) :=
  keeps_callAssign (fun c y v h => hfx.branch_pres c y name v h)

/-- sys = sys.checkout(name) keeps the invariant. -/
theorem keeps_stCheckout (fx : Fixture) (hfx : HandlePreserving fx)
    (name : String) : Keeps (stCheckout fx name) :=
  keeps_callAssign (fun c y v h => hfx.checkout_pres c y name v h)

/-- sys = sys.delete_branch(name) keeps the invariant. -/
theorem keeps_stDeleteBranch (fx : Fixture) (hfx : HandlePreserving fx)
    (name : String) : Keeps (stDeleteBranch fx name) :=
  keeps_callAssign (fun c y v h => hfx.delete_branch_pres c y name v h)

/-- sys = sys.merge(source) keeps the invariant. -/
theorem keeps_stMerge (fx : Fixture) (hfx : HandlePreserving fx)
    (source : String) : Keeps (stMerge fx source) :=
  keeps_callAssign (fun c y v h => hfx.merge_pres c y source v h)

/-- The walk-to-root loop keeps the invariant. -/
theorem keeps_walkToRoot (fx : Fixture) (fuel : Nat) (snap : String) :
    Keeps (walkToRoot fx fuel snap) := by
  induction fuel generalizing snap with
  | zero =>
    exact fun _ => ⟨rfl, fun _ he => he, fun _ hn => Or.inl hn⟩
  | succ n ih =>
    unfold walkToRoot
    exact keeps_bind (keeps_callExpr _)
      (fun parents => keeps_ite (keeps_mpure snap) (ih _))

/-- M.pure is self-contained. -/
theorem sc_mpure {α : Type} (x : α) : SelfContained (M.pure x) :=
  fun _ => ⟨fun _ he => he, fun _ hn => Or.inl hn⟩

/-- Sequencing of self-contained computations is self-contained. -/
theorem sc_bind {α β : Type} {m : M α} {f : α → M β}
    (hm : SelfContained m) (hf : ∀ x, SelfContained (f x)) :
    SelfContained (m >>= f) := by
  intro s
  rw [bind_run]
  rcases hms : m s with ⟨r, s1⟩
  have h1 := hm s
  rw [hms] at h1
  cases r with
  | ok x =>
    have h2 := (hf x) s1
    exact ⟨fun e he => h2.1 e (h1.1 e he),
      fun n hn =>
        Or.elim (h2.2 n hn)
          (fun hc => Or.elim (h1.2 n hc) Or.inl
            (fun hc2 => Or.inr (h2.1 _ hc2)))
          Or.inr⟩
  | error e => exact h1

/-- Branching between self-contained computations is self-contained. -/
theorem sc_ite {α : Type} {c : Prop} [Decidable c] {a b : M α}
    (ha : SelfContained a) (hb : SelfContained b) :
    SelfContained (if c then a else b) := by
  by_cases hc : c
  · rwa [if_pos hc]
  · rwa [if_neg hc]

/-- The acquire/try/finally shape closes what it creates: when the body
keeps the try-block invariant, the whole block is self-contained — the
freshly acquired system is closed on every exit path. -/
theorem sc_withSystem {α : Type} (fx : Fixture) (body : M α)
    (hb : Keeps body) : SelfContained (withSystem fx body) := by
  intro s
  unfold withSystem
  rw [bind_run]
  simp only [createSystem]
  cases hc : fx.create_system s.clock with
  | error e =>
    exact ⟨fun _ he => he, fun n hn => Or.inl hn⟩
  | ok u =>
    simp only [tryFinallyM, closeCur]
    rcases hbs : body (⟨s.counter + 1, s.clock + 1,
        TEvent.created s.counter :: s.events, s.counter⟩ : TState) with ⟨res, s2⟩
    have h2 := hb (⟨s.counter + 1, s.clock + 1,
        TEvent.created s.counter :: s.events, s.counter⟩ : TState)
    rw [hbs] at h2
    cases hcl : fx.close s2.clock s2.cur with
    | ok v =>
      refine ⟨fun e he =>
        List.mem_cons_of_mem _ (h2.2.1 e (List.mem_cons_of_mem _ he)), ?_⟩
      intro n hn
      rcases List.mem_cons.mp hn with hh | ht
      · exact absurd hh (by simp)
      · rcases h2.2.2 n ht with hcr | hcr
        · rcases List.mem_cons.mp hcr with hh2 | ht2
          · have hn2 : n = s.counter := by injection hh2
            have hcur : s2.cur = s.counter := h2.1
            exact Or.inr (by rw [hn2, ← hcur]; exact List.mem_cons_self _ _)
          · exact Or.inl ht2
        · exact Or.inr (List.mem_cons_of_mem _ hcr)
    | error e2 =>
      refine ⟨fun e he =>
        List.mem_cons_of_mem _ (h2.2.1 e (List.mem_cons_of_mem _ he)), ?_⟩
      intro n hn
      rcases List.mem_cons.mp hn with hh | ht
      · exact absurd hh (by simp)
      · rcases h2.2.2 n ht with hcr | hcr
        · rcases List.mem_cons.mp hcr with hh2 | ht2
          · have hn2 : n = s.counter := by injection hh2
            have hcur : s2.cur = s.counter := h2.1
            exact Or.inr (by rw [hn2, ← hcur]; exact List.mem_cons_self _ _)
          · exact Or.inl ht2
        · exact Or.inr (List.mem_cons_of_mem _ hcr)

/-- _has_capability is self-contained: its probe system is closed. -/
theorem sc_hasCapability (fx : Fixture) (cap : String) :
    SelfContained (hasCapability fx cap) :=
  sc_withSystem fx _ (keeps_bind (keeps_callExpr _) (fun _ => keeps_mpure _))

/-- The check test_snapshot_id_after_commit closes every system it acquires. -/
theorem sc_test_snapshot_id_after_commit (fx : Fixture) (hfx : HandlePreserving fx) :
    SelfContained (test_snapshot_id_after_commit fx) := by
  unfold test_snapshot_id_after_commit
  apply sc_withSystem
  repeat first
    | apply keeps_bind
    | apply keeps_ite
    | exact keeps_mpure _
    | exact keeps_callExpr _
    | exact keeps_massert _
    | exact keeps_pyIndex _ _
    | exact keeps_stMutate fx hfx
    | exact keeps_stCommit fx hfx _
    | exact keeps_stWriteEntry fx hfx _ _
    | exact keeps_stBranch fx hfx _
    | exact keeps_stCheckout fx hfx _
    | exact keeps_stDeleteBranch fx hfx _
    | exact keeps_stMerge fx hfx _
    | exact keeps_walkToRoot fx _ _
    | intro x

/-- The check test_parent_ids_root_commit closes every system it acquires. -/
theorem sc_test_parent_ids_root_commit (fx : Fixture) (hfx : HandlePreserving fx) :
    SelfContained (test_parent_ids_root_commit fx) := by
  unfold test_parent_ids_root_commit
  apply sc_withSystem
  repeat first
    | apply keeps_bind
    | apply keeps_ite
    | exact keeps_mpure _
    | exact keeps_callExpr _
    | exact keeps_massert _
    | exact keeps_pyIndex _ _
    | exact keeps_stMutate fx hfx
    | exact keeps_stCommit fx hfx _
    | exact keeps_stWriteEntry fx hfx _ _
    | exact keeps_stBranch fx hfx _
    | exact keeps_stCheckout fx hfx _
    | exact keeps_stDeleteBranch fx hfx _
    | exact keeps_stMerge fx hfx _
    | exact keeps_walkToRoot fx _ _
    | intro x

/-- The check test_parent_ids_chain closes every system it acquires. -/
theorem sc_test_parent_ids_chain (fx : Fixture) (hfx : HandlePreserving fx) :
    SelfContained (test_parent_ids_chain fx) := by
  unfold test_parent_ids_chain
  apply sc_withSystem
  repeat first
    | apply keeps_bind
    | apply keeps_ite
    | exact keeps_mpure _
    | exact keeps_callExpr _
    | exact keeps_massert _
    | exact keeps_pyIndex _ _
    | exact keeps_stMutate fx hfx
    | exact keeps_stCommit fx hfx _
    | exact keeps_stWriteEntry fx hfx _ _
    | exact keeps_stBranch fx hfx _
    | exact keeps_stCheckout fx hfx _
    | exact keeps_stDeleteBranch fx hfx _
    | exact keeps_stMerge fx hfx _
    | exact keeps_walkToRoot fx _ _
    | intro x

/-- The check test_snapshot_meta closes every system it acquires. -/
theorem sc_test_snapshot_meta (fx : Fixture) (hfx : HandlePreserving fx) :
    SelfContained (test_snapshot_meta fx) := by
  unfold test_snapshot_meta
  apply sc_withSystem
  repeat first
    | apply keeps_bind
    | apply keeps_ite
    | exact keeps_mpure _
    | exact keeps_callExpr _
    | exact keeps_massert _
    | exact keeps_pyIndex _ _
    | exact keeps_stMutate fx hfx
    | exact keeps_stCommit fx hfx _
    | exact keeps_stWriteEntry fx hfx _ _
    | exact keeps_stBranch fx hfx _
    | exact keeps_stCheckout fx hfx _
    | exact keeps_stDeleteBranch fx hfx _
    | exact keeps_stMerge fx hfx _
    | exact keeps_walkToRoot fx _ _
    | intro x

/-- The check test_as_of closes every system it acquires. -/
theorem sc_test_as_of (fx : Fixture) (hfx : HandlePreserving fx) :
    SelfContained (test_as_of fx) := by
  unfold test_as_of
  apply sc_withSystem
  repeat first
    | apply keeps_bind
    | apply keeps_ite
    | exact keeps_mpure _
    | exact keeps_callExpr _
    | exact keeps_massert _
    | exact keeps_pyIndex _ _
    | exact keeps_stMutate fx hfx
    | exact keeps_stCommit fx hfx _
    | exact keeps_stWriteEntry fx hfx _ _
    | exact keeps_stBranch fx hfx _
    | exact keeps_stCheckout fx hfx _
    | exact keeps_stDeleteBranch fx hfx _
    | exact keeps_stMerge fx hfx _
    | exact keeps_walkToRoot fx _ _
    | intro x

/-- The check test_system_identity closes every system it acquires. -/
theorem sc_test_system_identity (fx : Fixture) (hfx : HandlePreserving fx) :
    SelfContained (test_system_identity fx) := by
  unfold test_system_identity
  apply sc_withSystem
  repeat first
    | apply keeps_bind
    | apply keeps_ite
    | exact keeps_mpure _
    | exact keeps_callExpr _
    | exact keeps_massert _
    | exact keeps_pyIndex _ _
    | exact keeps_stMutate fx hfx
    | exact keeps_stCommit fx hfx _
    | exact keeps_stWriteEntry fx hfx _ _
    | exact keeps_stBranch fx hfx _
    | exact keeps_stCheckout fx hfx _
    | exact keeps_stDeleteBranch fx hfx _
    | exact keeps_stMerge fx hfx _
    | exact keeps_walkToRoot fx _ _
    | intro x

/-- The check test_write_read_roundtrip closes every system it acquires. -/
theorem sc_test_write_read_roundtrip (fx : Fixture) (hfx : HandlePreserving fx) :
    SelfContained (test_write_read_roundtrip fx) := by
  unfold test_write_read_roundtrip
  apply sc_withSystem
  repeat first
    | apply keeps_bind
    | apply keeps_ite
    | exact keeps_mpure _
    | exact keeps_callExpr _
    | exact keeps_massert _
    | exact keeps_pyIndex _ _
    | exact keeps_stMutate fx hfx
    | exact keeps_stCommit fx hfx _
    | exact keeps_stWriteEntry fx hfx _ _
    | exact keeps_stBranch fx hfx _
    | exact keeps_stCheckout fx hfx _
    | exact keeps_stDeleteBranch fx hfx _
    | exact keeps_stMerge fx hfx _
    | exact keeps_walkToRoot fx _ _
    | intro x

/-- The check test_count_after_writes closes every system it acquires. -/
theorem sc_test_count_after_writes (fx : Fixture) (hfx : HandlePreserving fx) :
    SelfContained (test_count_after_writes fx) := by
  unfold test_count_after_writes
  apply sc_withSystem
  repeat first
    | apply keeps_bind
    | apply keeps_ite
    | exact keeps_mpure _
    | exact keeps_callExpr _
    | exact keeps_massert _
    | exact keeps_pyIndex _ _
    | exact keeps_stMutate fx hfx
    | exact keeps_stCommit fx hfx _
    | exact keeps_stWriteEntry fx hfx _ _
    | exact keeps_stBranch fx hfx _
    | exact keeps_stCheckout fx hfx _
    | exact keeps_stDeleteBranch fx hfx _
    | exact keeps_stMerge fx hfx _
    | exact keeps_walkToRoot fx _ _
    | intro x

/-- The check test_multiple_entries_readable closes every system it acquires. -/
theorem sc_test_multiple_entries_readable (fx : Fixture) (hfx : HandlePreserving fx) :
    SelfContained (test_multiple_entries_readable fx) := by
  unfold test_multiple_entries_readable
  apply sc_withSystem
  repeat first
    | apply keeps_bind
    | apply keeps_ite
    | exact keeps_mpure _
    | exact keeps_callExpr _
    | exact keeps_massert _
    | exact keeps_pyIndex _ _
    | exact keeps_stMutate fx hfx
    | exact keeps_stCommit fx hfx _
    | exact keeps_stWriteEntry fx hfx _ _
    | exact keeps_stBranch fx hfx _
    | exact keeps_stCheckout fx hfx _
    | exact keeps_stDeleteBranch fx hfx _
    | exact keeps_stMerge fx hfx _
    | exact keeps_walkToRoot fx _ _
    | intro x

/-- The check test_initial_branches closes every system it acquires. -/
theorem sc_test_initial_branches (fx : Fixture) (hfx : HandlePreserving fx) :
    SelfContained (test_initial_branches fx) := by
  unfold test_initial_branches
  refine sc_bind (sc_hasCapability fx _) (fun b => ?_)
  refine sc_ite (sc_mpure _) ?_
  apply sc_withSystem
  repeat first
    | apply keeps_bind
    | apply keeps_ite
    | exact keeps_mpure _
    | exact keeps_callExpr _
    | exact keeps_massert _
    | exact keeps_pyIndex _ _
    | exact keeps_stMutate fx hfx
    | exact keeps_stCommit fx hfx _
    | exact keeps_stWriteEntry fx hfx _ _
    | exact keeps_stBranch fx hfx _
    | exact keeps_stCheckout fx hfx _
    | exact keeps_stDeleteBranch fx hfx _
    | exact keeps_stMerge fx hfx _
    | exact keeps_walkToRoot fx _ _
    | intro x

/-- The check test_create_branch closes every system it acquires. -/
theorem sc_test_create_branch (fx : Fixture) (hfx : HandlePreserving fx) :
    SelfContained (test_create_branch fx) := by
  unfold test_create_branch
  refine sc_bind (sc_hasCapability fx _) (fun b => ?_)
  refine sc_ite (sc_mpure _) ?_
  apply sc_withSystem
  repeat first
    | apply keeps_bind
    | apply keeps_ite
    | exact keeps_mpure _
    | exact keeps_callExpr _
    | exact keeps_massert _
    | exact keeps_pyIndex _ _
    | exact keeps_stMutate fx hfx
    | exact keeps_stCommit fx hfx _
    | exact keeps_stWriteEntry fx hfx _ _
    | exact keeps_stBranch fx hfx _
    | exact keeps_stCheckout fx hfx _
    | exact keeps_stDeleteBranch fx hfx _
    | exact keeps_stMerge fx hfx _
    | exact keeps_walkToRoot fx _ _
    | intro x

/-- The check test_checkout closes every system it acquires. -/
theorem sc_test_checkout (fx : Fixture) (hfx : HandlePreserving fx) :
    SelfContained (test_checkout fx) := by
  unfold test_checkout
  refine sc_bind (sc_hasCapability fx _) (fun b => ?_)
  refine sc_ite (sc_mpure _) ?_
  apply sc_withSystem
  repeat first
    | apply keeps_bind
    | apply keeps_ite
    | exact keeps_mpure _
    | exact keeps_callExpr _
    | exact keeps_massert _
    | exact keeps_pyIndex _ _
    | exact keeps_stMutate fx hfx
    | exact keeps_stCommit fx hfx _
    | exact keeps_stWriteEntry fx hfx _ _
    | exact keeps_stBranch fx hfx _
    | exact keeps_stCheckout fx hfx _
    | exact keeps_stDeleteBranch fx hfx _
    | exact keeps_stMerge fx hfx _
    | exact keeps_walkToRoot fx _ _
    | intro x

/-- The check test_branch_isolation closes every system it acquires. -/
theorem sc_test_branch_isolation (fx : Fixture) (hfx : HandlePreserving fx) :
    SelfContained (test_branch_isolation fx) := by
  unfold test_branch_isolation
  refine sc_bind (sc_hasCapability fx _) (fun b => ?_)
  refine sc_ite (sc_mpure _) ?_
  apply sc_withSystem
  repeat first
    | apply keeps_bind
    | apply keeps_ite
    | exact keeps_mpure _
    | exact keeps_callExpr _
    | exact keeps_massert _
    | exact keeps_pyIndex _ _
    | exact keeps_stMutate fx hfx
    | exact keeps_stCommit fx hfx _
    | exact keeps_stWriteEntry fx hfx _ _
    | exact keeps_stBranch fx hfx _
    | exact keeps_stCheckout fx hfx _
    | exact keeps_stDeleteBranch fx hfx _
    | exact keeps_stMerge fx hfx _
    | exact keeps_walkToRoot fx _ _
    | intro x

/-- The check test_delete_branch closes every system it acquires. -/
theorem sc_test_delete_branch (fx : Fixture) (hfx : HandlePreserving fx) :
    SelfContained (test_delete_branch fx) := by
  unfold test_delete_branch
  refine sc_bind (sc_hasCapability fx _) (fun b => ?_)
  refine sc_ite (sc_mpure _) ?_
  apply sc_withSystem
  repeat first
    | apply keeps_bind
    | apply keeps_ite
    | exact keeps_mpure _
    | exact keeps_callExpr _
    | exact keeps_massert _
    | exact keeps_pyIndex _ _
    | exact keeps_stMutate fx hfx
    | exact keeps_stCommit fx hfx _
    | exact keeps_stWriteEntry fx hfx _ _
    | exact keeps_stBranch fx hfx _
    | exact keeps_stCheckout fx hfx _
    | exact keeps_stDeleteBranch fx hfx _
    | exact keeps_stMerge fx hfx _
    | exact keeps_walkToRoot fx _ _
    | intro x

/-- The check test_history closes every system it acquires. -/
theorem sc_test_history (fx : Fixture) (hfx : HandlePreserving fx) :
    SelfContained (test_history fx) := by
  unfold test_history
  refine sc_bind (sc_hasCapability fx _) (fun b => ?_)
  refine sc_ite (sc_mpure _) ?_
  apply sc_withSystem
  repeat first
    | apply keeps_bind
    | apply keeps_ite
    | exact keeps_mpure _
    | exact keeps_callExpr _
    | exact keeps_massert _
    | exact keeps_pyIndex _ _
    | exact keeps_stMutate fx hfx
    | exact keeps_stCommit fx hfx _
    | exact keeps_stWriteEntry fx hfx _ _
    | exact keeps_stBranch fx hfx _
    | exact keeps_stCheckout fx hfx _
    | exact keeps_stDeleteBranch fx hfx _
    | exact keeps_stMerge fx hfx _
    | exact keeps_walkToRoot fx _ _
    | intro x

/-- The check test_history_limit closes every system it acquires. -/
theorem sc_test_history_limit (fx : Fixture) (hfx : HandlePreserving fx) :
    SelfContained (test_history_limit fx) := by
  unfold test_history_limit
  refine sc_bind (sc_hasCapability fx _) (fun b => ?_)
  refine sc_ite (sc_mpure _) ?_
  apply sc_withSystem
  repeat first
    | apply keeps_bind
    | apply keeps_ite
    | exact keeps_mpure _
    | exact keeps_callExpr _
    | exact keeps_massert _
    | exact keeps_pyIndex _ _
    | exact keeps_stMutate fx hfx
    | exact keeps_stCommit fx hfx _
    | exact keeps_stWriteEntry fx hfx _ _
    | exact keeps_stBranch fx hfx _
    | exact keeps_stCheckout fx hfx _
    | exact keeps_stDeleteBranch fx hfx _
    | exact keeps_stMerge fx hfx _
    | exact keeps_walkToRoot fx _ _
    | intro x

/-- The check test_ancestors closes every system it acquires. -/
theorem sc_test_ancestors (fx : Fixture) (hfx : HandlePreserving fx) :
    SelfContained (test_ancestors fx) := by
  unfold test_ancestors
  refine sc_bind (sc_hasCapability fx _) (fun b => ?_)
  refine sc_ite (sc_mpure _) ?_
  apply sc_withSystem
  repeat first
    | apply keeps_bind
    | apply keeps_ite
    | exact keeps_mpure _
    | exact keeps_callExpr _
    | exact keeps_massert _
    | exact keeps_pyIndex _ _
    | exact keeps_stMutate fx hfx
    | exact keeps_stCommit fx hfx _
    | exact keeps_stWriteEntry fx hfx _ _
    | exact keeps_stBranch fx hfx _
    | exact keeps_stCheckout fx hfx _
    | exact keeps_stDeleteBranch fx hfx _
    | exact keeps_stMerge fx hfx _
    | exact keeps_walkToRoot fx _ _
    | intro x

/-- The check test_ancestor_predicate closes every system it acquires. -/
theorem sc_test_ancestor_predicate (fx : Fixture) (hfx : HandlePreserving fx) :
    SelfContained (test_ancestor_predicate fx) := by
  unfold test_ancestor_predicate
  refine sc_bind (sc_hasCapability fx _) (fun b => ?_)
  refine sc_ite (sc_mpure _) ?_
  apply sc_withSystem
  repeat first
    | apply keeps_bind
    | apply keeps_ite
    | exact keeps_mpure _
    | exact keeps_callExpr _
    | exact keeps_massert _
    | exact keeps_pyIndex _ _
    | exact keeps_stMutate fx hfx
    | exact keeps_stCommit fx hfx _
    | exact keeps_stWriteEntry fx hfx _ _
    | exact keeps_stBranch fx hfx _
    | exact keeps_stCheckout fx hfx _
    | exact keeps_stDeleteBranch fx hfx _
    | exact keeps_stMerge fx hfx _
    | exact keeps_walkToRoot fx _ _
    | intro x

/-- The check test_commit_info closes every system it acquires. -/
theorem sc_test_commit_info (fx : Fixture) (hfx : HandlePreserving fx) :
    SelfContained (test_commit_info fx) := by
  unfold test_commit_info
  refine sc_bind (sc_hasCapability fx _) (fun b => ?_)
  refine sc_ite (sc_mpure _) ?_
  apply sc_withSystem
  repeat first
    | apply keeps_bind
    | apply keeps_ite
    | exact keeps_mpure _
    | exact keeps_callExpr _
    | exact keeps_massert _
    | exact keeps_pyIndex _ _
    | exact keeps_stMutate fx hfx
    | exact keeps_stCommit fx hfx _
    | exact keeps_stWriteEntry fx hfx _ _
    | exact keeps_stBranch fx hfx _
    | exact keeps_stCheckout fx hfx _
    | exact keeps_stDeleteBranch fx hfx _
    | exact keeps_stMerge fx hfx _
    | exact keeps_walkToRoot fx _ _
    | intro x

/-- The check test_merge closes every system it acquires. -/
theorem sc_test_merge (fx : Fixture) (hfx : HandlePreserving fx) :
    SelfContained (test_merge fx) := by
  unfold test_merge
  refine sc_bind (sc_hasCapability fx _) (fun b => ?_)
  refine sc_ite (sc_mpure _) ?_
  apply sc_withSystem
  repeat first
    | apply keeps_bind
    | apply keeps_ite
    | exact keeps_mpure _
    | exact keeps_callExpr _
    | exact keeps_massert _
    | exact keeps_pyIndex _ _
    | exact keeps_stMutate fx hfx
    | exact keeps_stCommit fx hfx _
    | exact keeps_stWriteEntry fx hfx _ _
    | exact keeps_stBranch fx hfx _
    | exact keeps_stCheckout fx hfx _
    | exact keeps_stDeleteBranch fx hfx _
    | exact keeps_stMerge fx hfx _
    | exact keeps_walkToRoot fx _ _
    | intro x

/-- The check test_merge_parent_ids closes every system it acquires. -/
theorem sc_test_merge_parent_ids (fx : Fixture) (hfx : HandlePreserving fx) :
    SelfContained (test_merge_parent_ids fx) := by
  unfold test_merge_parent_ids
  refine sc_bind (sc_hasCapability fx _) (fun b => ?_)
  refine sc_ite (sc_mpure _) ?_
  apply sc_withSystem
  repeat first
    | apply keeps_bind
    | apply keeps_ite
    | exact keeps_mpure _
    | exact keeps_callExpr _
    | exact keeps_massert _
    | exact keeps_pyIndex _ _
    | exact keeps_stMutate fx hfx
    | exact keeps_stCommit fx hfx _
    | exact keeps_stWriteEntry fx hfx _ _
    | exact keeps_stBranch fx hfx _
    | exact keeps_stCheckout fx hfx _
    | exact keeps_stDeleteBranch fx hfx _
    | exact keeps_stMerge fx hfx _
    | exact keeps_walkToRoot fx _ _
    | intro x

/-- The check test_conflicts_empty_for_compatible closes every system it acquires. -/
theorem sc_test_conflicts_empty_for_compatible (fx : Fixture) (hfx : HandlePreserving fx) :
    SelfContained (test_conflicts_empty_for_compatible fx) := by
  unfold test_conflicts_empty_for_compatible
  refine sc_bind (sc_hasCapability fx _) (fun b => ?_)
  refine sc_ite (sc_mpure _) ?_
  apply sc_withSystem
  repeat first
    | apply keeps_bind
    | apply keeps_ite
    | exact keeps_mpure _
    | exact keeps_callExpr _
    | exact keeps_massert _
    | exact keeps_pyIndex _ _
    | exact keeps_stMutate fx hfx
    | exact keeps_stCommit fx hfx _
    | exact keeps_stWriteEntry fx hfx _ _
    | exact keeps_stBranch fx hfx _
    | exact keeps_stCheckout fx hfx _
    | exact keeps_stDeleteBranch fx hfx _
    | exact keeps_stMerge fx hfx _
    | exact keeps_walkToRoot fx _ _
    | intro x

/-- The check test_diff closes every system it acquires. -/
theorem sc_test_diff (fx : Fixture) (hfx : HandlePreserving fx) :
    SelfContained (test_diff fx) := by
  unfold test_diff
  refine sc_bind (sc_hasCapability fx _) (fun b => ?_)
  refine sc_ite (sc_mpure _) ?_
  apply sc_withSystem
  repeat first
    | apply keeps_bind
    | apply keeps_ite
    | exact keeps_mpure _
    | exact keeps_callExpr _
    | exact keeps_massert _
    | exact keeps_pyIndex _ _
    | exact keeps_stMutate fx hfx
    | exact keeps_stCommit fx hfx _
    | exact keeps_stWriteEntry fx hfx _ _
    | exact keeps_stBranch fx hfx _
    | exact keeps_stCheckout fx hfx _
    | exact keeps_stDeleteBranch fx hfx _
    | exact keeps_stMerge fx hfx _
    | exact keeps_walkToRoot fx _ _
    | intro x

/-- The check test_branch_data_isolation closes every system it acquires. -/
theorem sc_test_branch_data_isolation (fx : Fixture) (hfx : HandlePreserving fx) :
    SelfContained (test_branch_data_isolation fx) := by
  unfold test_branch_data_isolation
  refine sc_bind (sc_hasCapability fx _) (fun b => ?_)
  refine sc_ite (sc_mpure _) ?_
  apply sc_withSystem
  repeat first
    | apply keeps_bind
    | apply keeps_ite
    | exact keeps_mpure _
    | exact keeps_callExpr _
    | exact keeps_massert _
    | exact keeps_pyIndex _ _
    | exact keeps_stMutate fx hfx
    | exact keeps_stCommit fx hfx _
    | exact keeps_stWriteEntry fx hfx _ _
    | exact keeps_stBranch fx hfx _
    | exact keeps_stCheckout fx hfx _
    | exact keeps_stDeleteBranch fx hfx _
    | exact keeps_stMerge fx hfx _
    | exact keeps_walkToRoot fx _ _
    | intro x

/-- The check test_common_ancestor closes every system it acquires. -/
theorem sc_test_common_ancestor (fx : Fixture) (hfx : HandlePreserving fx) :
    SelfContained (test_common_ancestor fx) := by
  unfold test_common_ancestor
  refine sc_bind (sc_hasCapability fx _) (fun b1 => ?_)
  refine sc_ite (sc_mpure _) ?_
  refine sc_bind (sc_hasCapability fx _) (fun b2 => ?_)
  refine sc_ite (sc_mpure _) ?_
  apply sc_withSystem
  repeat first
    | apply keeps_bind
    | apply keeps_ite
    | exact keeps_mpure _
    | exact keeps_callExpr _
    | exact keeps_massert _
    | exact keeps_pyIndex _ _
    | exact keeps_stMutate fx hfx
    | exact keeps_stCommit fx hfx _
    | exact keeps_stWriteEntry fx hfx _ _
    | exact keeps_stBranch fx hfx _
    | exact keeps_stCheckout fx hfx _
    | exact keeps_stDeleteBranch fx hfx _
    | exact keeps_stMerge fx hfx _
    | exact keeps_walkToRoot fx _ _
    | intro x

/-- The check test_delete_entry_consistency closes every system it acquires. -/
theorem sc_test_delete_entry_consistency (fx : Fixture) (hfx : HandlePreserving fx) :
    SelfContained (test_delete_entry_consistency fx) := by
  unfold test_delete_entry_consistency
  cases hdel : fx.delete_entry with
  | none => exact sc_mpure ()
  | some g =>
    apply sc_withSystem
    repeat first
      | apply keeps_bind
      | apply keeps_ite
      | exact keeps_mpure _
      | exact keeps_callExpr _
      | exact keeps_massert _
      | exact keeps_stCommit fx hfx _
      | exact keeps_stWriteEntry fx hfx _ _
      | exact keeps_stDeleteEntry fx hfx g hdel _
      | intro x

/-- The check test_overwrite_entry closes every system it acquires. -/
theorem sc_test_overwrite_entry (fx : Fixture) (hfx : HandlePreserving fx) :
    SelfContained (test_overwrite_entry fx) := by
  unfold test_overwrite_entry
  cases hdel : fx.delete_entry with
  | none => exact sc_mpure ()
  | some g =>
    apply sc_withSystem
    repeat first
      | apply keeps_bind
      | apply keeps_ite
      | exact keeps_mpure _
      | exact keeps_callExpr _
      | exact keeps_massert _
      | exact keeps_stCommit fx hfx _
      | exact keeps_stWriteEntry fx hfx _ _
      | exact keeps_stDeleteEntry fx hfx g hdel _
      | intro x

/-- C8: the default commit_info returns exactly snapshot_meta(snap_id)
when the same instance also implements Snapshotable, and fails with
Unsupported otherwise. -/
theorem claim_C8_commit_info_fallback (self : GraphableInstance)
    (snap_id : String) :
    (∀ f, self.snapshotMeta? = some f →
      Graphable.commit_info self snap_id = .ok (f snap_id)) ∧
    (self.snapshotMeta? = none →
      Graphable.commit_info self snap_id = .error .Unsupported) := by
  constructor
  · intro f hf
    simp [Graphable.commit_info, hf]
  · intro h
    simp [Graphable.commit_info, h]

/-- C8 witness: on a Snapshotable instance commit_info routes to its
snapshot_meta, on a Graphable-only instance it is Unsupported. -/
theorem claim_C8_commit_info_fallback_witness :
    Graphable.commit_info graphSnapInstance "s1" = .ok (sampleMeta "s1") ∧
    Graphable.commit_info graphOnlyInstance "s1" = .error .Unsupported :=
  ⟨(claim_C8_commit_info_fallback graphSnapInstance "s1").1 sampleMeta rfl,
   (claim_C8_commit_info_fallback graphOnlyInstance "s1").2 rfl⟩

/-- The concrete okFixture obeys the fixture contract. -/
theorem okHandlePreserving : HandlePreserving okFixture where
  mutate_pres := fun _ _ _ h => (Except.ok.inj h).symm
  commit_pres := fun _ _ _ _ h => (Except.ok.inj h).symm
  write_pres := fun _ _ _ _ _ h => (Except.ok.inj h).symm
  delete_pres := fun _ h => Option.noConfusion h
  branch_pres := fun _ _ _ _ h => (Except.ok.inj h).symm
  checkout_pres := fun _ _ _ _ h => (Except.ok.inj h).symm
  delete_branch_pres := fun _ _ _ _ h => (Except.ok.inj h).symm
  merge_pres := fun _ _ _ _ h => (Except.ok.inj h).symm

/-- C9: for every fixture obeying the documented contract (the operations
written sys = fix[...](sys) return the system they were given) and every
check registered in ALL_TESTS, every system the check acquires via
create_system — in particular the one acquired at its start — has close
called on it on every exit path of the check, including assertion
failure, which here is any run whatever the outcome of the fixture
operations and assertions. -/
theorem claim_C9_checks_close (fx : Fixture) (hfx : HandlePreserving fx)
    (t : Fixture → M Unit) (hmem : ∃ g ∈ allTests, t ∈ g.2) :
    ∀ n, TEvent.created n ∈ ((t fx) initState).2.events →
      TEvent.closed n ∈ ((t fx) initState).2.events := by
  have hsc : SelfContained (t fx) := by
    rcases hmem with ⟨g, hg, htg⟩
    simp only [allTests, List.mem_cons, List.not_mem_nil, or_false] at hg
    rcases hg with hg | hg | hg | hg | hg | hg <;> subst hg <;>
      simp only [List.mem_cons, List.not_mem_nil, or_false] at htg
    · subst htg
      exact sc_test_system_identity fx hfx
    · rcases htg with h | h | h | h | h <;> subst h
      · exact sc_test_snapshot_id_after_commit fx hfx
      · exact sc_test_parent_ids_root_commit fx hfx
      · exact sc_test_parent_ids_chain fx hfx
      · exact sc_test_snapshot_meta fx hfx
      · exact sc_test_as_of fx hfx
    · rcases htg with h | h | h | h | h <;> subst h
      · exact sc_test_initial_branches fx hfx
      · exact sc_test_create_branch fx hfx
      · exact sc_test_checkout fx hfx
      · exact sc_test_branch_isolation fx hfx
      · exact sc_test_delete_branch fx hfx
    · rcases htg with h | h | h | h | h | h <;> subst h
      · exact sc_test_history fx hfx
      · exact sc_test_history_limit fx hfx
      · exact sc_test_ancestors fx hfx
      · exact sc_test_ancestor_predicate fx hfx
      · exact sc_test_common_ancestor fx hfx
      · exact sc_test_commit_info fx hfx
    · rcases htg with h | h | h | h <;> subst h
      · exact sc_test_merge fx hfx
      · exact sc_test_merge_parent_ids fx hfx
      · exact sc_test_conflicts_empty_for_compatible fx hfx
      · exact sc_test_diff fx hfx
    · rcases htg with h | h | h | h | h | h <;> subst h
      · exact sc_test_write_read_roundtrip fx hfx
      · exact sc_test_count_after_writes fx hfx
      · exact sc_test_multiple_entries_readable fx hfx
      · exact sc_test_branch_data_isolation fx hfx
      · exact sc_test_delete_entry_consistency fx hfx
      · exact sc_test_overwrite_entry fx hfx
  intro n hn
  rcases (hsc initState).2 n hn with hc | hc
  · exact absurd hc (by simp [initState])
  · exact hc

/-- C9 witness: running test_system_identity with the concrete okFixture
acquires system 0 and the run closes it. -/
theorem claim_C9_checks_close_witness :
    TEvent.created 0 ∈ ((test_system_identity okFixture) initState).2.events ∧
    TEvent.closed 0 ∈ ((test_system_identity okFixture) initState).2.events :=
  ⟨by decide,
   claim_C9_checks_close okFixture okHandlePreserving test_system_identity
     ⟨("system_identity", [test_system_identity]), by simp [allTests], by simp⟩
     0 (by decide)⟩
